import Mathlib

/-!
Shallow embedding of the Network discrete space
(src/mesa/discrete_space/network.py) together with the external collaborators
the class calls into: the discrete-space base container, the Cell entity and
the graph backend.  The Network class itself (construction,
_connect_cells / _connect_single_cell, add_cell, remove_cell, add_connection,
remove_connection) is translated from the source file; the collaborators are
not part of the source tree and are modelled from the specification (the
capability contracts of section 6 and the base contracts of sections 4.2-4.5).

Conventions of the embedding:
* a Python dict is an association list with first-match lookup,
  order-preserving update of an existing key and append-on-new-key insertion;
* a reference to a Cell object is represented by the cell's coordinate
  (inside one space a coordinate identifies exactly one cell);
* an operation that can raise returns the raised error paired with the state
  as it is at the moment of the raise, because Python exceptions do not roll
  back mutations already performed earlier in the operation.
-/

section NetworkSpace

variable {α : Type} {β : Type} [DecidableEq α]

/-- First-match lookup in an association list: the read semantics of a
Python dict. -/
def mapLookup : List (α × β) → α → Option β
  | [], _ => none
  | p :: rest, k => if p.1 = k then some p.2 else mapLookup rest k

/-- Modelled from the spec: the Cell entity (external collaborator, sections 3
and 6): a fixed coordinate, a capacity, and a mapping from neighbour label to
the connected cell, the connected cell being represented by its coordinate.
Occupancy and the shared random source play no part in the claims and are
omitted. -/
structure Cell (α : Type) where
  coordinate : α
  capacity : Option Nat
  connections : List (α × α)
deriving DecidableEq

/-- Order-preserving dict update: replace the value stored under an existing
key, append a fresh binding otherwise (Python dict assignment). -/
def updateConn (conns : List (α × α)) (label tgt : α) : List (α × α) :=
  if conns.any (fun p => decide (p.1 = label)) then
    conns.map (fun p => if p.1 = label then (label, tgt) else p)
  else conns ++ [(label, tgt)]

/-- Modelled from the spec: Cell.connect(other, key) establishes a
one-directional adjacency record stored under the label key (section 6). -/
def Cell.connect (c : Cell α) (other label : α) : Cell α :=
  { c with connections := updateConn c.connections label other }

/-- Modelled from the spec: dropping the adjacency record stored under a
label, the cell-side half of connection removal (sections 4.5 and 6). -/
def Cell.disconnect (c : Cell α) (label : α) : Cell α :=
  { c with connections := c.connections.filter (fun p => decide (p.1 ≠ label)) }

/-- Modelled from the spec: the graph backend (external collaborator,
section 6): node enumeration, neighbour enumeration and node/edge mutation,
with the backend behaviour the source relies on (add_node and add_edge are
idempotent and add_edge inserts missing endpoints; remove_node and
remove_edge raise on a missing target, modelled as returning none; removing a
node drops its incident edges).  An undirected edge is stored once, in either
orientation. -/
structure Graph (α : Type) where
  nodes : List α
  edges : List (α × α)
deriving DecidableEq

/-- An undirected edge between u and v is present in either orientation. -/
def Graph.HasEdge (G : Graph α) (u v : α) : Prop :=
  (u, v) ∈ G.edges ∨ (v, u) ∈ G.edges

instance (G : Graph α) (u v : α) : Decidable (G.HasEdge u v) := by
  unfold Graph.HasEdge; infer_instance

/-- Neighbour enumeration: every node sharing an edge with u, taken from the
incident edges in either orientation. -/
def Graph.neighbors (G : Graph α) (u : α) : List α :=
  G.edges.filterMap (fun e =>
    if e.1 = u then some e.2 else if e.2 = u then some e.1 else none)

def Graph.add_node (G : Graph α) (n : α) : Graph α :=
  if n ∈ G.nodes then G else { G with nodes := G.nodes ++ [n] }

def Graph.remove_node (G : Graph α) (n : α) : Option (Graph α) :=
  if n ∈ G.nodes then
    some { nodes := G.nodes.filter (fun m => decide (m ≠ n)),
           edges := G.edges.filter (fun e => decide (e.1 ≠ n ∧ e.2 ≠ n)) }
  else none

def Graph.add_edge (G : Graph α) (u v : α) : Graph α :=
  let G1 := (G.add_node u).add_node v
  if G1.HasEdge u v then G1 else { G1 with edges := G1.edges ++ [(u, v)] }

def Graph.remove_edge (G : Graph α) (u v : α) : Option (Graph α) :=
  if G.HasEdge u v then
    some { G with edges := G.edges.filter (fun e =>
      decide (¬((e.1 = u ∧ e.2 = v) ∨ (e.1 = v ∧ e.2 = u)))) }
  else none

/-- Well-formedness that the graph backend guarantees for every graph it
hands out: no duplicate node, every edge endpoint is a node, and no edge is
stored twice (in either orientation). -/
def Graph.WF (G : Graph α) : Prop :=
  G.nodes.Nodup ∧ (∀ e ∈ G.edges, e.1 ∈ G.nodes ∧ e.2 ∈ G.nodes) ∧
    G.edges.Pairwise (fun e f =>
      ¬(e.1 = f.1 ∧ e.2 = f.2) ∧ ¬(e.1 = f.2 ∧ e.2 = f.1))

/-- The coordinate-to-Cell dict owned by the discrete-space base. -/
abbrev CellMap (α : Type) := List (α × Cell α)

/-- The effect of mutating, through a shared reference, the cell object
registered under a coordinate: every binding of that coordinate is updated in
place. -/
def updateCell (cells : CellMap α) (coord : α) (f : Cell α → Cell α) : CellMap α :=
  cells.map (fun p => if p.1 = coord then (p.1, f p.2) else p)

/-- The error taxonomy of section 7: identity conflict, missing entity, and
an error raised by the graph backend itself. -/
inductive SpaceError where
  | identityConflict
  | missingEntity
  | graphError
deriving DecidableEq

/-- Modelled from the spec: the base container's add_cell (section 4.2): a
cell whose coordinate is already registered is a conflict, signalled rather
than silently overwritten; otherwise the cell is inserted into the dict. -/
def baseAddCell (cells : CellMap α) (c : Cell α) : Except SpaceError (CellMap α) :=
  if (mapLookup cells c.coordinate).isSome then
    Except.error SpaceError.identityConflict
  else Except.ok (cells ++ [(c.coordinate, c)])

/-- Modelled from the spec: the base container's remove_cell (section 4.3):
unregisters the cell from the mapping, failing when the coordinate is not
registered.  Per the open question of section 9 it does not scrub the
connection records other cells hold towards the removed cell. -/
def baseRemoveCell (cells : CellMap α) (c : Cell α) : Except SpaceError (CellMap α) :=
  if (mapLookup cells c.coordinate).isSome then
    Except.ok (cells.filter (fun p => decide (p.1 ≠ c.coordinate)))
  else Except.error SpaceError.missingEntity

/-- Modelled from the spec: the base container's add_connection (section
4.4): fails when either cell is not registered, otherwise connects the two
registered cells symmetrically, each record labelled by the other cell's
coordinate. -/
def baseAddConnection (cells : CellMap α) (c1 c2 : Cell α) :
    Except SpaceError (CellMap α) :=
  match mapLookup cells c1.coordinate, mapLookup cells c2.coordinate with
  | some _, some _ =>
      Except.ok (updateCell
        (updateCell cells c1.coordinate
          (fun c => c.connect c2.coordinate c2.coordinate))
        c2.coordinate (fun c => c.connect c1.coordinate c1.coordinate))
  | _, _ => Except.error SpaceError.missingEntity

/-- Modelled from the spec: the base container's remove_connection (section
4.5): fails when either cell is not registered or no connection is currently
recorded between the two coordinates, otherwise drops the record on both
sides. -/
def baseRemoveConnection (cells : CellMap α) (c1 c2 : Cell α) :
    Except SpaceError (CellMap α) :=
  match mapLookup cells c1.coordinate, mapLookup cells c2.coordinate with
  | some a, some _ =>
      if (mapLookup a.connections c2.coordinate).isSome then
        Except.ok (updateCell
          (updateCell cells c1.coordinate (fun c => c.disconnect c2.coordinate))
          c2.coordinate (fun c => c.disconnect c1.coordinate))
      else Except.error SpaceError.missingEntity
  | _, _ => Except.error SpaceError.missingEntity

/-- The Network space state: the coordinate-to-Cell mapping delegated to the
discrete-space base, and the backing graph (held by reference in the source,
a field here). -/
structure Network (α : Type) where
  cells : CellMap α
  G : Graph α
deriving DecidableEq

/-- Translation of Network.__init__: base initialisation yields an empty
mapping; every graph node then gets a fresh cell of the configured capacity
registered under the node identifier; finally _connect_cells /
_connect_single_cell connect every cell to the cell of each of its graph
neighbours, the record labelled by the neighbour identifier (the target of
cell.connect is the registered cell of that neighbour, represented here by
its coordinate).  The random source and the pluggable cell class do not
matter to the claims; the default Cell is modelled. -/
def Network.init (G : Graph α) (capacity : Option Nat) : Network α :=
  let cells0 : CellMap α :=
    G.nodes.map (fun n =>
      (n, { coordinate := n, capacity := capacity, connections := [] }))
  { cells := cells0.map (fun p =>
      (p.1, (G.neighbors p.1).foldl (fun c m => c.connect m m) p.2)),
    G := G }

/-- Translation of Network.add_cell: base registration first, then
G.add_node; a base error propagates before the graph is touched. -/
def Network.add_cell (s : Network α) (c : Cell α) :
    Option SpaceError × Network α :=
  match baseAddCell s.cells c with
  | Except.error e => (some e, s)
  | Except.ok cells => (none, { cells := cells, G := s.G.add_node c.coordinate })

/-- Translation of Network.remove_cell: base unregistration first, then
G.remove_node; a base error propagates before the graph is touched, and a
graph-side error leaves the already-performed base mutation in place. -/
def Network.remove_cell (s : Network α) (c : Cell α) :
    Option SpaceError × Network α :=
  match baseRemoveCell s.cells c with
  | Except.error e => (some e, s)
  | Except.ok cells =>
      match s.G.remove_node c.coordinate with
      | none => (some SpaceError.graphError, { s with cells := cells })
      | some G => (none, { cells := cells, G := G })

/-- Translation of Network.add_connection: base connection first, then
G.add_edge; a base error propagates before the graph is touched. -/
def Network.add_connection (s : Network α) (c1 c2 : Cell α) :
    Option SpaceError × Network α :=
  match baseAddConnection s.cells c1 c2 with
  | Except.error e => (some e, s)
  | Except.ok cells =>
      (none, { cells := cells, G := s.G.add_edge c1.coordinate c2.coordinate })

/-- Translation of Network.remove_connection: base disconnection first, then
G.remove_edge; a base error propagates before the graph is touched, and a
graph-side error leaves the already-performed base mutation in place. -/
def Network.remove_connection (s : Network α) (c1 c2 : Cell α) :
    Option SpaceError × Network α :=
  match baseRemoveConnection s.cells c1 c2 with
  | Except.error e => (some e, s)
  | Except.ok cells =>
      match s.G.remove_edge c1.coordinate c2.coordinate with
      | none => (some SpaceError.graphError, { s with cells := cells })
      | some G => (none, { cells := cells, G := G })

/-- The cell that construction registers for a node: a fresh cell under the
node identifier, connected to each graph neighbour under the neighbour's
label. -/
def initCell (G : Graph α) (capacity : Option Nat) (n : α) : Cell α :=
  (G.neighbors n).foldl (fun c m => c.connect m m)
    { coordinate := n, capacity := capacity, connections := [] }

/-! Helper lemmas about the dict and graph primitives. -/

theorem mapLookup_append_of_none {l1 l2 : List (α × β)} {x : α}
    (h : mapLookup l1 x = none) : mapLookup (l1 ++ l2) x = mapLookup l2 x := by
  induction l1 with
  | nil => rfl
  | cons p rest ih =>
    rw [List.cons_append]
    simp only [mapLookup] at h ⊢
    by_cases hp : p.1 = x
    · simp [hp] at h
    · rw [if_neg hp] at h ⊢
      exact ih h

theorem mapLookup_append_of_some {l1 l2 : List (α × β)} {x : α} {v : β}
    (h : mapLookup l1 x = some v) : mapLookup (l1 ++ l2) x = some v := by
  induction l1 with
  | nil => simp [mapLookup] at h
  | cons p rest ih =>
    rw [List.cons_append]
    simp only [mapLookup] at h ⊢
    by_cases hp : p.1 = x
    · rwa [if_pos hp] at h ⊢
    · rw [if_neg hp] at h ⊢
      exact ih h

theorem mapLookup_eq_none_iff {l : List (α × β)} {x : α} :
    mapLookup l x = none ↔ ∀ p ∈ l, p.1 ≠ x := by
  induction l with
  | nil => simp [mapLookup]
  | cons p rest ih =>
    simp only [mapLookup, List.mem_cons]
    by_cases hp : p.1 = x
    · simp [hp]
    · simp only [if_neg hp, ih]
      constructor
      · intro h q hq
        rcases hq with hq | hq
        · rw [hq]; exact hp
        · exact h q hq
      · intro h q hq
        exact h q (Or.inr hq)

theorem mapLookup_map_keyed {l : List α} {f : α → β} {u : α} :
    mapLookup (l.map (fun n => (n, f n))) u = if u ∈ l then some (f u) else none := by
  induction l with
  | nil => simp [mapLookup]
  | cons a rest ih =>
    simp only [List.map_cons, mapLookup, List.mem_cons]
    by_cases ha : a = u
    · subst ha
      simp
    · rw [if_neg ha, ih]
      have hua : u ≠ a := fun h => ha h.symm
      by_cases hu : u ∈ rest
      · simp [hu, hua]
      · simp [hu, hua]

theorem mapLookup_replace_ne {conns : List (α × α)} {l t x : α} (hx : x ≠ l) :
    mapLookup (conns.map (fun p => if p.1 = l then (l, t) else p)) x =
      mapLookup conns x := by
  induction conns with
  | nil => rfl
  | cons p rest ih =>
    simp only [List.map_cons, mapLookup]
    by_cases hp : p.1 = l
    · rw [if_pos hp]
      rw [if_neg (show ¬(((l, t) : α × α).1 = x) from fun h => hx h.symm),
        if_neg (show ¬(p.1 = x) from fun h => hx (h.symm.trans hp))]
      exact ih
    · rw [if_neg hp]
      by_cases hpx : p.1 = x
      · rw [if_pos hpx, if_pos hpx]
      · rw [if_neg hpx, if_neg hpx]
        exact ih

theorem mapLookup_replace_self {conns : List (α × α)} {l t : α}
    (h : ∃ p ∈ conns, p.1 = l) :
    mapLookup (conns.map (fun p => if p.1 = l then (l, t) else p)) l = some t := by
  induction conns with
  | nil => simp at h
  | cons p rest ih =>
    simp only [List.map_cons, mapLookup]
    by_cases hp : p.1 = l
    · rw [if_pos hp]
      simp [mapLookup]
    · rw [if_neg hp]
      simp only [mapLookup, if_neg hp]
      apply ih
      rcases h with ⟨q, hq, hql⟩
      rcases List.mem_cons.mp hq with hq1 | hq1
      · exact absurd (hq1 ▸ hql) hp
      · exact ⟨q, hq1, hql⟩

theorem mapLookup_updateConn {conns : List (α × α)} {l t x : α} :
    mapLookup (updateConn conns l t) x =
      if x = l then some t else mapLookup conns x := by
  unfold updateConn
  by_cases hany : conns.any (fun p => decide (p.1 = l)) = true
  · rw [if_pos hany]
    by_cases hx : x = l
    · subst hx
      rw [if_pos rfl]
      apply mapLookup_replace_self
      simpa using hany
    · rw [if_neg hx]
      exact mapLookup_replace_ne hx
  · rw [if_neg hany]
    have hnone : mapLookup conns l = none := by
      rw [mapLookup_eq_none_iff]
      intro p hp hpl
      exact hany (List.any_eq_true.mpr ⟨p, hp, by simp [hpl]⟩)
    by_cases hx : x = l
    · subst hx
      rw [if_pos rfl, mapLookup_append_of_none hnone]
      simp [mapLookup]
    · rw [if_neg hx]
      cases hsx : mapLookup conns x with
      | some v => rw [mapLookup_append_of_some hsx]
      | none =>
        rw [mapLookup_append_of_none hsx]
        simp only [mapLookup]
        rw [if_neg (fun h => hx h.symm)]

theorem mapLookup_connect {c : Cell α} {t l x : α} :
    mapLookup (c.connect t l).connections x =
      if x = l then some t else mapLookup c.connections x := by
  simp [Cell.connect, mapLookup_updateConn]

theorem mapLookup_foldl_connect {ns : List α} {c : Cell α} {x : α} :
    mapLookup ((ns.foldl (fun c m => c.connect m m) c).connections) x =
      if x ∈ ns then some x else mapLookup c.connections x := by
  induction ns generalizing c with
  | nil => simp
  | cons m rest ih =>
    rw [List.foldl_cons, ih]
    by_cases hr : x ∈ rest
    · simp [hr, List.mem_cons]
    · rw [if_neg hr, mapLookup_connect]
      by_cases hm : x = m
      · subst hm
        simp
      · simp [hm, hr, List.mem_cons]

theorem mapLookup_updateCell_self {cells : CellMap α} {k : α} {f : Cell α → Cell α} :
    mapLookup (updateCell cells k f) k = Option.map f (mapLookup cells k) := by
  unfold updateCell
  induction cells with
  | nil => rfl
  | cons p rest ih =>
    simp only [List.map_cons, mapLookup]
    by_cases hpk : p.1 = k
    · rw [if_pos hpk]
      rw [if_pos (show ((p.1, f p.2) : α × Cell α).1 = k from hpk), if_pos hpk]
      rfl
    · rw [if_neg hpk, if_neg hpk, if_neg hpk]
      exact ih

theorem mapLookup_updateCell_ne {cells : CellMap α} {k x : α} {f : Cell α → Cell α}
    (hx : x ≠ k) : mapLookup (updateCell cells k f) x = mapLookup cells x := by
  unfold updateCell
  induction cells with
  | nil => rfl
  | cons p rest ih =>
    simp only [List.map_cons, mapLookup]
    by_cases hpk : p.1 = k
    · have hpx : p.1 ≠ x := fun h => hx ((h.symm.trans hpk))
      rw [if_pos hpk]
      rw [if_neg (show ¬(((p.1, f p.2) : α × Cell α).1 = x) from hpx), if_neg hpx]
      exact ih
    · rw [if_neg hpk]
      by_cases hpx : p.1 = x
      · rw [if_pos hpx, if_pos hpx]
      · rw [if_neg hpx, if_neg hpx]
        exact ih

theorem updateCell_eq_self {cells : CellMap α} {k : α} {f : Cell α → Cell α}
    (h : ∀ p ∈ cells, p.1 = k → f p.2 = p.2) : updateCell cells k f = cells := by
  induction cells with
  | nil => rfl
  | cons p rest ih =>
    have htail : updateCell rest k f = rest :=
      ih (fun q hq => h q (List.mem_cons_of_mem _ hq))
    show (if p.1 = k then (p.1, f p.2) else p) :: updateCell rest k f = p :: rest
    rw [htail]
    by_cases hpk : p.1 = k
    · rw [if_pos hpk, h p (List.mem_cons_self _ _) hpk]
    · rw [if_neg hpk]

theorem lookup_of_mem_nodup {cells : List (α × β)} {k : α} {v : β}
    (hnd : (cells.map Prod.fst).Nodup) (hm : (k, v) ∈ cells) :
    mapLookup cells k = some v := by
  induction cells with
  | nil => cases hm
  | cons p rest ih =>
    simp only [List.map_cons, List.nodup_cons] at hnd
    rcases List.mem_cons.mp hm with h | h
    · rw [← h]
      simp [mapLookup]
    · have hk : k ∈ rest.map Prod.fst := by
        exact List.mem_map.mpr ⟨(k, v), h, rfl⟩
      have hne : p.1 ≠ k := fun he => hnd.1 (he ▸ hk)
      simp only [mapLookup, if_neg hne]
      exact ih hnd.2 h

theorem updateCell_updateCell_same {cells : CellMap α} {k : α}
    {f g : Cell α → Cell α} :
    updateCell (updateCell cells k f) k g = updateCell cells k (fun c => g (f c)) := by
  unfold updateCell
  rw [List.map_map]
  apply List.map_congr_left
  intro p _
  by_cases hpk : p.1 = k
  · simp [Function.comp, hpk]
  · simp [Function.comp, hpk]

theorem updateCell_comm {cells : CellMap α} {k1 k2 : α}
    {f g : Cell α → Cell α} (h : k1 ≠ k2) :
    updateCell (updateCell cells k1 f) k2 g =
      updateCell (updateCell cells k2 g) k1 f := by
  unfold updateCell
  rw [List.map_map, List.map_map]
  apply List.map_congr_left
  intro p _
  by_cases h1 : p.1 = k1
  · have h2 : p.1 ≠ k2 := fun hh => h (h1.symm.trans hh)
    simp [Function.comp, h1, h2, h]
  · by_cases h2 : p.1 = k2
    · simp [Function.comp, h1, h2, Ne.symm h]
    · simp [Function.comp, h1, h2]

theorem hasEdge_neighbors {G : Graph α} {u v : α} (h : G.HasEdge u v) :
    v ∈ G.neighbors u := by
  unfold Graph.neighbors
  rcases h with h | h
  · exact List.mem_filterMap.mpr ⟨(u, v), h, by simp⟩
  · refine List.mem_filterMap.mpr ⟨(v, u), h, ?_⟩
    by_cases hvu : v = u
    · subst hvu
      simp
    · simp [hvu]

theorem add_node_edges {G : Graph α} {n : α} : (G.add_node n).edges = G.edges := by
  unfold Graph.add_node
  split <;> rfl

theorem add_node_of_mem {G : Graph α} {n : α} (h : n ∈ G.nodes) :
    G.add_node n = G := by
  unfold Graph.add_node
  rw [if_pos h]

theorem add_edge_hasEdge {G : Graph α} {u v : α} :
    (G.add_edge u v).HasEdge u v := by
  unfold Graph.add_edge
  by_cases h : ((G.add_node u).add_node v).HasEdge u v
  · simp [h]
  · simp only [if_neg h]
    exact Or.inl (by simp)

theorem init_cells_eq (G : Graph α) (cap : Option Nat) :
    (Network.init G cap).cells = G.nodes.map (fun n => (n, initCell G cap n)) := by
  simp only [Network.init, initCell]
  rw [List.map_map]
  rfl

omit [DecidableEq α] in
theorem hasEdge_symm {G : Graph α} {u v : α} (h : G.HasEdge u v) :
    G.HasEdge v u := h.elim Or.inr Or.inl

instance (G : Graph α) : Decidable G.WF := by
  unfold Graph.WF
  infer_instance

/-- C1: constructing a Network space from a graph G registers exactly one
cell per graph node, keyed by the node identifier: the list of coordinates of
the cell mapping is exactly the list of nodes of G, hence the two sets and
the two sizes agree, and an empty graph yields an empty space with no
error. -/
theorem network_init_cells_match_nodes (G : Graph α) (cap : Option Nat) :
    (Network.init G cap).cells.map Prod.fst = G.nodes ∧
      (Network.init G cap).cells.length = G.nodes.length := by
  rw [init_cells_eq]
  constructor
  · rw [List.map_map]
    exact List.map_id G.nodes
  · rw [List.length_map]

/-- C2: after construction from a well-formed graph, every edge (u, v) is
mirrored by symmetric cell connections: the cell registered at u records a
connection to the cell registered at v under label v, and the cell at v
records one to the cell at u under label u. -/
theorem network_init_edges_mirrored (G : Graph α) (cap : Option Nat) (u v : α)
    (hWF : G.WF) (h : G.HasEdge u v) :
    ∃ cu, mapLookup (Network.init G cap).cells u = some cu ∧
      mapLookup cu.connections v = some v ∧
      ∃ cv, mapLookup (Network.init G cap).cells v = some cv ∧
        mapLookup cv.connections u = some u := by
  obtain ⟨hnd, hends, hpw⟩ := hWF
  have hu : u ∈ G.nodes := by
    rcases h with h | h
    · exact (hends _ h).1
    · exact (hends _ h).2
  have hv : v ∈ G.nodes := by
    rcases h with h | h
    · exact (hends _ h).2
    · exact (hends _ h).1
  rw [init_cells_eq]
  refine ⟨initCell G cap u, ?_, ?_, initCell G cap v, ?_, ?_⟩
  · rw [mapLookup_map_keyed, if_pos hu]
  · unfold initCell
    rw [mapLookup_foldl_connect, if_pos (hasEdge_neighbors h)]
  · rw [mapLookup_map_keyed, if_pos hv]
  · unfold initCell
    rw [mapLookup_foldl_connect, if_pos (hasEdge_neighbors (hasEdge_symm h))]

theorem network_init_edges_mirrored_witness :
    ∃ cu, mapLookup (Network.init (Graph.mk [0, 1] [(0, 1)]) none).cells 0 = some cu ∧
      mapLookup cu.connections 1 = some 1 ∧
      ∃ cv, mapLookup (Network.init (Graph.mk [0, 1] [(0, 1)]) none).cells 1 = some cv ∧
        mapLookup cv.connections 0 = some 0 :=
  network_init_edges_mirrored (Graph.mk [0, 1] [(0, 1)]) none 0 1 (by decide)
    (by decide)

/-- C9: construction does not mutate the supplied graph: the constructor only
reads the graph's node set and neighbour enumerations and stores a reference
to the graph, so the node and edge sets after construction are exactly those
supplied. -/
theorem network_init_graph_unchanged (G : Graph α) (cap : Option Nat) :
    (Network.init G cap).G = G ∧ (Network.init G cap).G.nodes = G.nodes ∧
      (Network.init G cap).G.edges = G.edges :=
  ⟨rfl, rfl, rfl⟩

theorem any_key_eq_false_of_lookup_none {conns : List (α × α)} {l : α}
    (h : mapLookup conns l = none) :
    conns.any (fun p => decide (p.1 = l)) = false := by
  rw [List.any_eq_false]
  intro p hp
  simp only [decide_eq_true_eq]
  exact mapLookup_eq_none_iff.mp h p hp

theorem connect_append {c : Cell α} {t l : α}
    (h : mapLookup c.connections l = none) :
    (c.connect t l).connections = c.connections ++ [(l, t)] := by
  unfold Cell.connect updateConn
  rw [any_key_eq_false_of_lookup_none h]
  rfl

theorem filter_key_ne_of_lookup_none {conns : List (α × α)} {l : α}
    (h : mapLookup conns l = none) :
    conns.filter (fun p => decide (p.1 ≠ l)) = conns := by
  rw [List.filter_eq_self]
  intro p hp
  simp only [decide_eq_true_eq]
  exact mapLookup_eq_none_iff.mp h p hp

theorem disconnect_of_none {c : Cell α} {l : α}
    (h : mapLookup c.connections l = none) : c.disconnect l = c := by
  unfold Cell.disconnect
  rw [filter_key_ne_of_lookup_none h]

theorem disconnect_connect {c : Cell α} {t l : α}
    (h : mapLookup c.connections l = none) : (c.connect t l).disconnect l = c := by
  unfold Cell.disconnect
  rw [connect_append h, List.filter_append, filter_key_ne_of_lookup_none h]
  have : ([(l, t)] : List (α × α)).filter (fun p => decide (p.1 ≠ l)) = [] := by
    simp
  rw [this, List.append_nil]
  cases c
  rfl

theorem updateConn_append_self {conns : List (α × α)} {l t : α}
    (h : mapLookup conns l = none) :
    updateConn (conns ++ [(l, t)]) l t = conns ++ [(l, t)] := by
  unfold updateConn
  have hany : (conns ++ [(l, t)]).any (fun p => decide (p.1 = l)) = true := by
    rw [List.any_eq_true]
    exact ⟨(l, t), by simp, by simp⟩
  rw [if_pos hany, List.map_append]
  congr 1
  · conv_rhs => rw [← List.map_id conns]
    apply List.map_congr_left
    intro p hp
    rw [if_neg (mapLookup_eq_none_iff.mp h p hp)]
    rfl
  · simp

theorem connect_self_of_append {c : Cell α} {l : α}
    (hconn : mapLookup c.connections l = none) :
    ((c.connect l l).connect l l) = c.connect l l := by
  have h1 : (c.connect l l).connections = c.connections ++ [(l, l)] :=
    connect_append hconn
  unfold Cell.connect
  rw [Cell.connect] at h1
  simp only [Cell.connect] at h1 ⊢
  congr 1
  rw [h1]
  exact updateConn_append_self hconn

theorem updateCell_eq_of_lookup {cells : CellMap α} {k : α} {v : Cell α}
    {f : Cell α → Cell α} (hnd : (cells.map Prod.fst).Nodup)
    (hlk : mapLookup cells k = some v) (hf : f v = v) :
    updateCell cells k f = cells := by
  apply updateCell_eq_self
  intro p hp hpk
  have hmem : (k, p.2) ∈ cells := by
    have : p = (k, p.2) := by
      cases p
      simp only at hpk
      rw [hpk]
    rw [← this]
    exact hp
  have := lookup_of_mem_nodup hnd hmem
  rw [hlk] at this
  have hv : p.2 = v := by
    injection this.symm
  rw [hv, hf]

/-- C4: add_connection on two registered cells succeeds, records the
connection on both sides, each side labelled by the other cell's coordinate,
and puts the corresponding edge in the graph. -/
theorem network_add_connection_connects (s : Network α) (c1 c2 : Cell α)
    (ca cb : Cell α) (hca : mapLookup s.cells c1.coordinate = some ca)
    (hcb : mapLookup s.cells c2.coordinate = some cb) :
    ∃ s', Network.add_connection s c1 c2 = (none, s') ∧
      (∃ d1, mapLookup s'.cells c1.coordinate = some d1 ∧
        mapLookup d1.connections c2.coordinate = some c2.coordinate) ∧
      (∃ d2, mapLookup s'.cells c2.coordinate = some d2 ∧
        mapLookup d2.connections c1.coordinate = some c1.coordinate) ∧
      s'.G.HasEdge c1.coordinate c2.coordinate := by
  simp only [Network.add_connection, baseAddConnection, hca, hcb]
  refine ⟨_, rfl, ?_, ?_, add_edge_hasEdge⟩
  · by_cases hab : c1.coordinate = c2.coordinate
    · rw [hab, mapLookup_updateCell_self, mapLookup_updateCell_self, hcb]
      refine ⟨_, rfl, ?_⟩
      rw [mapLookup_connect]
      simp
    · rw [mapLookup_updateCell_ne hab, mapLookup_updateCell_self, hca]
      refine ⟨_, rfl, ?_⟩
      rw [mapLookup_connect]
      simp
  · by_cases hab : c1.coordinate = c2.coordinate
    · rw [← hab, mapLookup_updateCell_self, mapLookup_updateCell_self, hca]
      refine ⟨_, rfl, ?_⟩
      rw [mapLookup_connect]
      simp
    · rw [mapLookup_updateCell_self, mapLookup_updateCell_ne (fun hh => hab hh.symm),
        hcb]
      refine ⟨_, rfl, ?_⟩
      rw [mapLookup_connect]
      simp

theorem network_add_connection_connects_witness :
    ∃ s', Network.add_connection
        (Network.mk [(0, Cell.mk 0 none []), (1, Cell.mk 1 none [])]
          (Graph.mk [0, 1] []))
        (Cell.mk 0 none []) (Cell.mk 1 none []) = (none, s') ∧
      (∃ d1, mapLookup s'.cells 0 = some d1 ∧
        mapLookup d1.connections 1 = some 1) ∧
      (∃ d2, mapLookup s'.cells 1 = some d2 ∧
        mapLookup d2.connections 0 = some 0) ∧
      s'.G.HasEdge 0 1 :=
  network_add_connection_connects _ (Cell.mk 0 none []) (Cell.mk 1 none [])
    (Cell.mk 0 none []) (Cell.mk 1 none []) (by decide) (by decide)

/-- C6: add_cell on a coordinate that already has a registered cell fails
with the distinct identity-conflict error and leaves the whole state, in
particular the registered cell, unchanged (no silent overwrite). -/
theorem network_add_cell_conflict (s : Network α) (c : Cell α)
    (h : (mapLookup s.cells c.coordinate).isSome) :
    Network.add_cell s c = (some SpaceError.identityConflict, s) := by
  simp only [Network.add_cell, baseAddCell, if_pos h]

theorem network_add_cell_conflict_witness :
    Network.add_cell
        (Network.mk [(0, Cell.mk 0 none [])] (Graph.mk [0] []))
        (Cell.mk 0 (some 3) []) =
      (some SpaceError.identityConflict,
        Network.mk [(0, Cell.mk 0 none [])] (Graph.mk [0] [])) :=
  network_add_cell_conflict _ _ (by decide)

/-- C7: add_connection fails with a missing-entity error, and changes
nothing (in particular no graph node or edge is added), whenever either of
the two cells is not registered in the space. -/
theorem network_add_connection_unregistered (s : Network α) (c1 c2 : Cell α)
    (h : mapLookup s.cells c1.coordinate = none ∨
      mapLookup s.cells c2.coordinate = none) :
    Network.add_connection s c1 c2 = (some SpaceError.missingEntity, s) := by
  rcases h with h | h
  · cases h2 : mapLookup s.cells c2.coordinate with
    | none => simp only [Network.add_connection, baseAddConnection, h, h2]
    | some cb => simp only [Network.add_connection, baseAddConnection, h, h2]
  · cases h1 : mapLookup s.cells c1.coordinate with
    | none => simp only [Network.add_connection, baseAddConnection, h, h1]
    | some ca => simp only [Network.add_connection, baseAddConnection, h, h1]

theorem network_add_connection_unregistered_witness :
    Network.add_connection
        (Network.mk [(0, Cell.mk 0 none [])] (Graph.mk [0] []))
        (Cell.mk 0 none []) (Cell.mk 1 none []) =
      (some SpaceError.missingEntity,
        Network.mk [(0, Cell.mk 0 none [])] (Graph.mk [0] [])) :=
  network_add_connection_unregistered _ _ _ (Or.inr (by decide))

/-- C10: every mutation operation performs the cell-side (base) update before
the graph-side update: whenever the base update raises, the operation stops
with that error and returns the state, hence the graph, unchanged. -/
theorem network_mutations_base_first :
    (∀ (s : Network α) (c : Cell α) (e : SpaceError),
        baseAddCell s.cells c = Except.error e →
          Network.add_cell s c = (some e, s)) ∧
    (∀ (s : Network α) (c : Cell α) (e : SpaceError),
        baseRemoveCell s.cells c = Except.error e →
          Network.remove_cell s c = (some e, s)) ∧
    (∀ (s : Network α) (c1 c2 : Cell α) (e : SpaceError),
        baseAddConnection s.cells c1 c2 = Except.error e →
          Network.add_connection s c1 c2 = (some e, s)) ∧
    (∀ (s : Network α) (c1 c2 : Cell α) (e : SpaceError),
        baseRemoveConnection s.cells c1 c2 = Except.error e →
          Network.remove_connection s c1 c2 = (some e, s)) := by
  refine ⟨?_, ?_, ?_, ?_⟩
  · intro s c e h
    simp only [Network.add_cell, h]
  · intro s c e h
    simp only [Network.remove_cell, h]
  · intro s c1 c2 e h
    simp only [Network.add_connection, h]
  · intro s c1 c2 e h
    simp only [Network.remove_connection, h]

theorem network_mutations_base_first_witness :
    Network.add_cell
        (Network.mk [(0, Cell.mk 0 none [])] (Graph.mk [0] []))
        (Cell.mk 0 none []) =
      (some SpaceError.identityConflict,
        Network.mk [(0, Cell.mk 0 none [])] (Graph.mk [0] [])) ∧
    Network.remove_cell
        (Network.mk [(0, Cell.mk 0 none [])] (Graph.mk [0] []))
        (Cell.mk 1 none []) =
      (some SpaceError.missingEntity,
        Network.mk [(0, Cell.mk 0 none [])] (Graph.mk [0] [])) ∧
    Network.add_connection
        (Network.mk [(0, Cell.mk 0 none [])] (Graph.mk [0] []))
        (Cell.mk 1 none []) (Cell.mk 0 none []) =
      (some SpaceError.missingEntity,
        Network.mk [(0, Cell.mk 0 none [])] (Graph.mk [0] [])) ∧
    Network.remove_connection
        (Network.mk [(0, Cell.mk 0 none [])] (Graph.mk [0] []))
        (Cell.mk 0 none []) (Cell.mk 0 none []) =
      (some SpaceError.missingEntity,
        Network.mk [(0, Cell.mk 0 none [])] (Graph.mk [0] [])) :=
  ⟨network_mutations_base_first.1 _ _ _ (by rfl),
    network_mutations_base_first.2.1 _ _ _ (by rfl),
    network_mutations_base_first.2.2.1 _ _ _ _ (by rfl),
    network_mutations_base_first.2.2.2 _ _ _ _ (by rfl)⟩

/-- C3 (evaluation at the failing input): over the two-node graph 0 - 1,
removing the cell at 0 succeeds, deletes the mapping entry, the node and the
incident edge, yet the surviving cell at 1 still holds a connection labelled
0 towards the removed cell, which is no longer registered: a dangling
connection survives the removal. -/
theorem network_remove_cell_leaves_dangling :
    Network.remove_cell (Network.init (Graph.mk [0, 1] [(0, 1)]) none)
        (Cell.mk 0 none [(1, 1)]) =
      (none, Network.mk [(1, Cell.mk 1 none [(0, 0)])] (Graph.mk [1] [])) ∧
    mapLookup
        (Network.remove_cell (Network.init (Graph.mk [0, 1] [(0, 1)]) none)
          (Cell.mk 0 none [(1, 1)])).2.cells 1 =
      some (Cell.mk 1 none [(0, 0)]) ∧
    mapLookup
        (Network.remove_cell (Network.init (Graph.mk [0, 1] [(0, 1)]) none)
          (Cell.mk 0 none [(1, 1)])).2.cells 0 = none := by
  decide

/-- C5 as stated is false: adding a cell that already carries a connection
record, in a state whose graph already mentions the coordinate in an edge,
succeeds but yields neither an isolated node (the coordinate has an incident
edge) nor a connection-free cell, and the node/cell bijection does not hold
afterwards. -/
theorem network_add_cell_counterexample :
    Network.add_cell (Network.mk [] (Graph.mk [1] [(0, 1)]))
        (Cell.mk 0 none [(1, 1)]) =
      (none, Network.mk [(0, Cell.mk 0 none [(1, 1)])] (Graph.mk [1, 0] [(0, 1)])) ∧
    (Graph.mk [1, 0] [(0, 1)] : Graph Nat).HasEdge 0 1 ∧
    mapLookup [(0, Cell.mk 0 none [(1, 1)])] 0 = some (Cell.mk 0 none [(1, 1)]) ∧
    ¬((mapLookup [(0, Cell.mk 0 none [(1, 1)])] (1 : Nat)).isSome ↔
        (1 : Nat) ∈ (Graph.mk [1, 0] [(0, 1)] : Graph Nat).nodes) := by
  refine ⟨by decide, by decide, by decide, ?_⟩
  intro h
  have h2 := h.mpr (by decide)
  rw [show mapLookup [(0, Cell.mk 0 none [(1, 1)])] (1 : Nat) = none from rfl] at h2
  exact absurd h2 (by decide)

/-- C5 (amended): for a cell that holds no connections, whose coordinate is
not yet registered, and in a consistent state (node/cell bijection holds and
every edge joins existing nodes), add_cell registers the cell in the mapping
and its coordinate in the graph as an isolated node: the coordinate is a
node with no incident edge, the registered cell is the given connection-free
cell, and the bijection still holds. -/
theorem network_add_cell_fresh (s : Network α) (c : Cell α)
    (hco : mapLookup s.cells c.coordinate = none)
    (hconn : c.connections = [])
    (hbij : ∀ x, (mapLookup s.cells x).isSome ↔ x ∈ s.G.nodes)
    (hends : ∀ e ∈ s.G.edges, e.1 ∈ s.G.nodes ∧ e.2 ∈ s.G.nodes) :
    ∃ s', Network.add_cell s c = (none, s') ∧
      mapLookup s'.cells c.coordinate = some c ∧
      c.connections = [] ∧
      c.coordinate ∈ s'.G.nodes ∧
      (∀ e ∈ s'.G.edges, e.1 ≠ c.coordinate ∧ e.2 ≠ c.coordinate) ∧
      (∀ x, (mapLookup s'.cells x).isSome ↔ x ∈ s'.G.nodes) := by
  have hnode : c.coordinate ∉ s.G.nodes := by
    intro hm
    have h2 := (hbij c.coordinate).mpr hm
    rw [hco] at h2
    simp at h2
  have hG : s.G.add_node c.coordinate =
      Graph.mk (s.G.nodes ++ [c.coordinate]) s.G.edges := by
    unfold Graph.add_node
    rw [if_neg hnode]
  have hadd : Network.add_cell s c =
      (none, Network.mk (s.cells ++ [(c.coordinate, c)])
        (Graph.mk (s.G.nodes ++ [c.coordinate]) s.G.edges)) := by
    rw [← hG]
    unfold Network.add_cell baseAddCell
    rw [hco]
    rfl
  refine ⟨_, hadd, ?_, hconn, ?_, ?_, ?_⟩
  · rw [mapLookup_append_of_none hco]
    simp [mapLookup]
  · simp
  · intro e he
    obtain ⟨h1, h2⟩ := hends e he
    exact ⟨fun hh => hnode (hh ▸ h1), fun hh => hnode (hh ▸ h2)⟩
  · intro x
    cases hsx : mapLookup s.cells x with
    | some v =>
      rw [mapLookup_append_of_some hsx]
      have hx : x ∈ s.G.nodes := (hbij x).mp (by rw [hsx]; rfl)
      simp only [Option.isSome_some, true_iff]
      exact List.mem_append_left _ hx
    | none =>
      rw [mapLookup_append_of_none hsx]
      have hxn : x ∉ s.G.nodes := by
        intro hm
        have h2 := (hbij x).mpr hm
        rw [hsx] at h2
        simp at h2
      constructor
      · intro hs
        by_cases hcx : c.coordinate = x
        · exact List.mem_append_right _ (by simp [hcx])
        · simp only [mapLookup, if_neg hcx] at hs
          simp at hs
      · intro hm
        rcases List.mem_append.mp hm with hm | hm
        · exact absurd hm hxn
        · have hx : x = c.coordinate := by simpa using hm
          simp [mapLookup, hx]

theorem network_add_cell_fresh_witness :
    ∃ s', Network.add_cell (Network.init (Graph.mk [1] []) none)
        (Cell.mk 0 none []) = (none, s') ∧
      mapLookup s'.cells 0 = some (Cell.mk 0 none []) ∧
      (Cell.mk 0 none [] : Cell Nat).connections = [] ∧
      (0 : Nat) ∈ s'.G.nodes ∧
      (∀ e ∈ s'.G.edges, e.1 ≠ 0 ∧ e.2 ≠ 0) ∧
      (∀ x, (mapLookup s'.cells x).isSome ↔ x ∈ s'.G.nodes) := by
  have hcells : (Network.init (Graph.mk [1] []) none).cells =
      [(1, Cell.mk 1 none [])] := by decide
  refine network_add_cell_fresh _ _ (by decide) rfl ?_ (by decide)
  intro x
  rw [hcells]
  show (mapLookup [(1, Cell.mk 1 none [])] x).isSome ↔ x ∈ [1]
  by_cases hx : (1 : Nat) = x
  · subst hx
    simp [mapLookup]
  · have hx2 : x ≠ 1 := fun h => hx h.symm
    simp [mapLookup, hx, hx2]

/-- C8 as stated is false when a connection already exists between the two
registered cells: over the graph 0 - 1 with its edge already mirrored,
add_connection is a no-op, so the following remove_connection deletes the
pre-existing connection and edge instead of restoring the prior state. -/
theorem network_connection_roundtrip_counterexample :
    Network.add_connection (Network.init (Graph.mk [0, 1] [(0, 1)]) none)
        (Cell.mk 0 none [(1, 1)]) (Cell.mk 1 none [(0, 0)]) =
      (none, Network.init (Graph.mk [0, 1] [(0, 1)]) none) ∧
    Network.remove_connection (Network.init (Graph.mk [0, 1] [(0, 1)]) none)
        (Cell.mk 0 none [(1, 1)]) (Cell.mk 1 none [(0, 0)]) =
      (none, Network.mk [(0, Cell.mk 0 none []), (1, Cell.mk 1 none [])]
        (Graph.mk [0, 1] [])) ∧
    (Graph.mk [0, 1] [] : Graph Nat).edges ≠
      (Network.init (Graph.mk [0, 1] [(0, 1)]) none).G.edges := by
  decide

/-- C8 (amended): for two registered cells with no existing connection or
edge between them, add_connection followed by remove_connection restores the
exact prior state (cell mapping and graph), and a second remove_connection on
the restored state fails cleanly with a missing-entity error, leaving the
state unchanged. -/
theorem network_connection_roundtrip (s : Network α) (c1 c2 : Cell α)
    (hnd : (s.cells.map Prod.fst).Nodup)
    (hc1 : mapLookup s.cells c1.coordinate = some c1)
    (hc2 : mapLookup s.cells c2.coordinate = some c2)
    (hn1 : c1.coordinate ∈ s.G.nodes) (hn2 : c2.coordinate ∈ s.G.nodes)
    (hnc1 : mapLookup c1.connections c2.coordinate = none)
    (hnc2 : mapLookup c2.connections c1.coordinate = none)
    (hne : ¬s.G.HasEdge c1.coordinate c2.coordinate) :
    ∃ s1, Network.add_connection s c1 c2 = (none, s1) ∧
      Network.remove_connection s1 c1 c2 = (none, s) ∧
      Network.remove_connection s c1 c2 = (some SpaceError.missingEntity, s) := by
  have herr : Network.remove_connection s c1 c2 =
      (some SpaceError.missingEntity, s) := by
    simp only [Network.remove_connection, baseRemoveConnection, hc1, hc2, hnc1,
      Option.isSome_none, Bool.false_eq_true, if_false]
  have hGadd : s.G.add_edge c1.coordinate c2.coordinate =
      Graph.mk s.G.nodes (s.G.edges ++ [(c1.coordinate, c2.coordinate)]) := by
    simp only [Graph.add_edge]
    rw [add_node_of_mem hn1, add_node_of_mem hn2, if_neg hne]
  have hGrem : (Graph.mk s.G.nodes
        (s.G.edges ++ [(c1.coordinate, c2.coordinate)])).remove_edge
      c1.coordinate c2.coordinate = some s.G := by
    have hmem : (c1.coordinate, c2.coordinate) ∈
        s.G.edges ++ [(c1.coordinate, c2.coordinate)] :=
      List.mem_append_right _ (List.mem_singleton.mpr rfl)
    simp only [Graph.remove_edge]
    rw [if_pos (show (Graph.mk s.G.nodes
      (s.G.edges ++ [(c1.coordinate, c2.coordinate)])).HasEdge c1.coordinate
        c2.coordinate from Or.inl hmem)]
    have hfil : (s.G.edges ++ [(c1.coordinate, c2.coordinate)]).filter
        (fun e => decide (¬((e.1 = c1.coordinate ∧ e.2 = c2.coordinate) ∨
          (e.1 = c2.coordinate ∧ e.2 = c1.coordinate)))) = s.G.edges := by
      rw [List.filter_append]
      have h1 : s.G.edges.filter
          (fun e => decide (¬((e.1 = c1.coordinate ∧ e.2 = c2.coordinate) ∨
            (e.1 = c2.coordinate ∧ e.2 = c1.coordinate)))) = s.G.edges := by
        rw [List.filter_eq_self]
        intro e he
        simp only [decide_eq_true_eq]
        rintro (⟨h1, h2⟩ | ⟨h1, h2⟩)
        · exact hne (Or.inl (by rw [← h1, ← h2]; exact he))
        · exact hne (Or.inr (by rw [← h1, ← h2]; exact he))
      have h2 : ([(c1.coordinate, c2.coordinate)]).filter
          (fun e => decide (¬((e.1 = c1.coordinate ∧ e.2 = c2.coordinate) ∨
            (e.1 = c2.coordinate ∧ e.2 = c1.coordinate)))) = [] := by
        simp
      rw [h1, h2, List.append_nil]
    rw [hfil]
  have hAdd : Network.add_connection s c1 c2 = (none, Network.mk
      (updateCell (updateCell s.cells c1.coordinate
        (fun c => c.connect c2.coordinate c2.coordinate)) c2.coordinate
        (fun c => c.connect c1.coordinate c1.coordinate))
      (Graph.mk s.G.nodes (s.G.edges ++ [(c1.coordinate, c2.coordinate)]))) := by
    simp only [Network.add_connection, baseAddConnection, hc1, hc2, hGadd]
  by_cases hab : c1.coordinate = c2.coordinate
  · have hcc : c1 = c2 := by
      rw [hab] at hc1
      rw [hc1] at hc2
      exact Option.some_inj.mp hc2
    subst hcc
    rw [updateCell_updateCell_same] at hAdd
    have hFF : ((c1.connect c1.coordinate c1.coordinate).connect c1.coordinate
        c1.coordinate) = c1.connect c1.coordinate c1.coordinate :=
      connect_self_of_append hnc1
    have hlkAdd : mapLookup (updateCell s.cells c1.coordinate
        (fun c => (c.connect c1.coordinate c1.coordinate).connect c1.coordinate
          c1.coordinate)) c1.coordinate =
        some (c1.connect c1.coordinate c1.coordinate) := by
      rw [mapLookup_updateCell_self, hc1]
      simp [hFF]
    have hcond : (mapLookup ((c1.connect c1.coordinate
        c1.coordinate)).connections c1.coordinate).isSome = true := by
      rw [mapLookup_connect, if_pos rfl]
      rfl
    have hrem_cells : updateCell (updateCell (updateCell s.cells c1.coordinate
        (fun c => (c.connect c1.coordinate c1.coordinate).connect c1.coordinate
          c1.coordinate)) c1.coordinate (fun c => c.disconnect c1.coordinate))
        c1.coordinate (fun c => c.disconnect c1.coordinate) = s.cells := by
      rw [updateCell_updateCell_same, updateCell_updateCell_same]
      apply updateCell_eq_of_lookup hnd hc1
      show ((((c1.connect c1.coordinate c1.coordinate).connect c1.coordinate
        c1.coordinate).disconnect c1.coordinate).disconnect c1.coordinate) = c1
      rw [hFF, disconnect_connect hnc1, disconnect_of_none hnc1]
    refine ⟨_, hAdd, ?_, herr⟩
    simp only [Network.remove_connection, baseRemoveConnection, hlkAdd, hcond,
      if_true, hGrem, hrem_cells]
  · have hba : c2.coordinate ≠ c1.coordinate := fun hh => hab hh.symm
    have hlkAdd_a : mapLookup (updateCell (updateCell s.cells c1.coordinate
        (fun c => c.connect c2.coordinate c2.coordinate)) c2.coordinate
        (fun c => c.connect c1.coordinate c1.coordinate)) c1.coordinate =
        some (c1.connect c2.coordinate c2.coordinate) := by
      rw [mapLookup_updateCell_ne hab, mapLookup_updateCell_self, hc1]
      rfl
    have hlkAdd_b : mapLookup (updateCell (updateCell s.cells c1.coordinate
        (fun c => c.connect c2.coordinate c2.coordinate)) c2.coordinate
        (fun c => c.connect c1.coordinate c1.coordinate)) c2.coordinate =
        some (c2.connect c1.coordinate c1.coordinate) := by
      rw [mapLookup_updateCell_self, mapLookup_updateCell_ne hba, hc2]
      rfl
    have hcond : (mapLookup (c1.connect c2.coordinate
        c2.coordinate).connections c2.coordinate).isSome = true := by
      rw [mapLookup_connect, if_pos rfl]
      rfl
    have hrem_cells : updateCell (updateCell (updateCell (updateCell s.cells
        c1.coordinate (fun c => c.connect c2.coordinate c2.coordinate))
        c2.coordinate (fun c => c.connect c1.coordinate c1.coordinate))
        c1.coordinate (fun c => c.disconnect c2.coordinate)) c2.coordinate
        (fun c => c.disconnect c1.coordinate) = s.cells := by
      rw [updateCell_comm hba, updateCell_updateCell_same,
        updateCell_updateCell_same,
        updateCell_eq_of_lookup hnd hc1 (disconnect_connect hnc1),
        updateCell_eq_of_lookup hnd hc2 (disconnect_connect hnc2)]
    refine ⟨_, hAdd, ?_, herr⟩
    simp only [Network.remove_connection, baseRemoveConnection, hlkAdd_a,
      hlkAdd_b, hcond, if_true, hGrem, hrem_cells]

theorem network_connection_roundtrip_witness :
    ∃ s1, Network.add_connection (Network.init (Graph.mk [0, 1] []) none)
        (Cell.mk 0 none []) (Cell.mk 1 none []) = (none, s1) ∧
      Network.remove_connection s1 (Cell.mk 0 none []) (Cell.mk 1 none []) =
        (none, Network.init (Graph.mk [0, 1] []) none) ∧
      Network.remove_connection (Network.init (Graph.mk [0, 1] []) none)
        (Cell.mk 0 none []) (Cell.mk 1 none []) =
        (some SpaceError.missingEntity, Network.init (Graph.mk [0, 1] []) none) :=
  network_connection_roundtrip _ (Cell.mk 0 none []) (Cell.mk 1 none [])
    (by decide) (by decide) (by decide) (by decide) (by decide) (by rfl) (by rfl)
    (by decide)

end NetworkSpace
